import Mathlib

/-!
Shallow embedding of the `ClusterGraph` force-directed graph component of the
Mock-SC6117 repository (`src/App.tsx`, `ClusterGraph` section), together with
proofs of the specified properties.

Numeric values (positions, velocities, radii, thresholds) are embedded as
rationals; the JavaScript `undefined`-able fields become `Option` values.
-/

namespace ClusterGraphModel

/-- Node kinds: the `type` field of a D3 node in the source
(`'root' | 'cluster' | 'note'`).  The spec calls these root / group / leaf. -/
inductive NodeType where
  | root
  | cluster
  | note
deriving DecidableEq, Repr

/-- A D3 simulation node (interface `D3Node` in the source): identifier, display
name, kind, the optional backing note id (`noteId`, the spec's `leafRef`),
radius `r`, the owning cluster id for note nodes (`originalClusterId`, the
spec's `originGroupId`), the mutable physical state `x y vx vy` and the pin
`fx fy`.  Fields that may be `undefined` in JavaScript are `Option`s. -/
@[ext]
structure D3Node where
  id : String
  name : String
  ty : NodeType
  noteId : Option String
  r : ℚ
  originalClusterId : Option String
  x : Option ℚ
  y : Option ℚ
  vx : Option ℚ
  vy : Option ℚ
  fx : Option ℚ
  fy : Option ℚ
deriving DecidableEq, Repr

/-- A D3 link (interface `D3Link`): endpoints identified by node id.  (In the
source the endpoints start as id strings; d3's link force later resolves them
against the node array by id, which we model with `nodeById` below.) -/
structure D3Link where
  source : String
  target : String
deriving DecidableEq, Repr

/-- A leaf descriptor of the input tree: a child entry of a cluster
(`ClusterNode` with `type: 'note'` in `types.ts`); only the fields read by
`updateGraphData` are kept (`id`, `name`, `noteId`). -/
structure ClusterChild where
  id : String
  name : String
  noteId : Option String
deriving DecidableEq, Repr

/-- A group of the input tree (`ClusterNode` with `type: 'cluster'`): only the
fields read by `updateGraphData` are kept (`id`, `name`, optional
`children`). -/
structure Cluster where
  id : String
  name : String
  children : Option (List ClusterChild)
deriving DecidableEq, Repr

/-- The root node pushed first by `updateGraphData`:
`{ id: 'root', name: 'Knowledge Base', type: 'root', r: 35 }`. -/
def rootNode : D3Node :=
  { id := "root", name := "Knowledge Base", ty := NodeType.root, noteId := none
    r := 35, originalClusterId := none
    x := none, y := none, vx := none, vy := none, fx := none, fy := none }

/-- The cluster node emitted for a group:
`{ id: cluster.id, name: cluster.name, type: 'cluster', r: 25 }`. -/
def clusterNodeOf (c : Cluster) : D3Node :=
  { id := c.id, name := c.name, ty := NodeType.cluster, noteId := none
    r := 25, originalClusterId := none
    x := none, y := none, vx := none, vy := none, fx := none, fy := none }

/-- The note node emitted for a leaf under a group:
`{ id: note.id, name: note.name, type: 'note', noteId: note.noteId, r: 12,
originalClusterId: cluster.id }`. -/
def noteNodeOf (c : Cluster) (n : ClusterChild) : D3Node :=
  { id := n.id, name := n.name, ty := NodeType.note, noteId := n.noteId
    r := 12, originalClusterId := some c.id
    x := none, y := none, vx := none, vy := none, fx := none, fy := none }

/-- The nodes pushed for one group: the cluster node followed by the note nodes
of its children (`if (cluster.children) cluster.children.forEach(...)`; an
absent `children` contributes nothing). -/
def clusterEmittedNodes (c : Cluster) : List D3Node :=
  clusterNodeOf c :: (c.children.getD []).map (noteNodeOf c)

/-- The links pushed for one group: `root → cluster` followed by one
`cluster → note` link per child. -/
def clusterEmittedLinks (c : Cluster) : List D3Link :=
  { source := "root", target := c.id }
    :: (c.children.getD []).map (fun n => { source := c.id, target := n.id })

/-- `newNodes` of `updateGraphData`: the root node, then per group its cluster
node and note nodes, in source iteration order. -/
def newNodes (clusters : List Cluster) : List D3Node :=
  rootNode :: clusters.flatMap clusterEmittedNodes

/-- `newLinks` of `updateGraphData`. -/
def newLinks (clusters : List Cluster) : List D3Link :=
  clusters.flatMap clusterEmittedLinks

/-- `existingNodesMap`: the JavaScript
`new Map(nodesRef.current.map(d => [d.id, d]))` of `updateGraphData`.  A JS
`Map` built from a pair list lets later entries overwrite earlier ones
(last write wins), and `updateGraphData` only ever calls `.get` on it, so the
map is embedded as its lookup function, built by folding the insertions in
list order. -/
def existingNodesMap (prior : List D3Node) : String → Option D3Node :=
  prior.foldl (fun m d => fun k => if k = d.id then some d else m k)
    (fun _ => none)

/-- The merge step of `updateGraphData`: if a node with the same id existed in
the prior generation, copy its `x`, `y`, `vx`, `vy` onto the freshly emitted
node, and only those four fields; otherwise return the node unchanged. -/
def mergeNode (m : String → Option D3Node) (d : D3Node) : D3Node :=
  match m d.id with
  | some old => { d with x := old.x, y := old.y, vx := old.vx, vy := old.vy }
  | none => d

/-- `updateGraphData` (source lines 755–799): flatten the input tree into nodes
and links, then merge each emitted node against the prior generation's nodes
(`nodesRef.current`) by id.  Returns the new `(nodesRef, linksRef)` contents. -/
def updateGraphData (clusters : List Cluster) (prior : List D3Node) :
    List D3Node × List D3Link :=
  ((newNodes clusters).map (mergeNode (existingNodesMap prior)),
   newLinks clusters)

/-- The physical state quadruple `{x, y, vx, vy}` of a node. -/
def phys (d : D3Node) : Option ℚ × Option ℚ × Option ℚ × Option ℚ :=
  (d.x, d.y, d.vx, d.vy)

/-! ## Force simulation configuration (source lines 813–822) -/

/-- The link force's distance accessor,
`d => d.source.type === 'root' ? 120 : 60`, applied to the resolved source
node of a link. -/
def linkDistance (s : D3Node) : ℚ :=
  if s.ty = NodeType.root then 120 else 60

/-- d3's id-based link endpoint resolution: `forceLink(...).id(d => d.id)`
builds a `Map` from node id to node over the node array (duplicate ids: last
write wins, as for any JS `Map`) and looks the endpoint id up in it.  The JS
`Map` is embedded as its lookup function, exactly as `existingNodesMap`. -/
def nodeById (nodes : List D3Node) : String → Option D3Node :=
  existingNodesMap nodes

/-- The target distance a link of the simulation reports: `linkDistance` of its
resolved source node (`none` if the source id resolves to no node, in which
case d3 itself would fail at initialization; the links built by
`updateGraphData` always resolve). -/
def linkTargetDistance (nodes : List D3Node) (l : D3Link) : Option ℚ :=
  (nodeById nodes l.source).map linkDistance

/-- The collision force's effective radius accessor, `d => d.r * 1.5`. -/
def collideRadius (r : ℚ) : ℚ := r * 1.5

/-- The fixed force configuration and data the `useEffect` hands to
`d3.forceSimulation` (source lines 814–820): the rebuilt nodes and links, the
charge strength `-400`, the collision iteration count `2`, and the centering
force at `(width / 2, height / 2)` with strength `0.1`. -/
structure SimConfig where
  nodes : List D3Node
  links : List D3Link
  chargeStrength : ℚ
  collideIterations : Nat
  centerX : ℚ
  centerY : ℚ
  centerStrength : ℚ
deriving DecidableEq, Repr

/-- The `useEffect` body of `ClusterGraph` up to the simulation creation
(source lines 801–822): it returns early — building no simulation — exactly
when the cluster list is empty or either DOM ref is unset
(`if (!clusters.length || !svgRef.current || !containerRef.current) return`);
otherwise it rebuilds the graph data and creates the simulation with the fixed
force configuration.  The viewport size is read but never tested: it only
enters as `width / 2` and `height / 2` in the centering force. -/
def clusterGraphEffect (clusters : List Cluster)
    (svgPresent containerPresent : Bool) (width height : ℚ)
    (prior : List D3Node) : Option SimConfig :=
  if clusters.isEmpty || !svgPresent || !containerPresent then none
  else
    let gd := updateGraphData clusters prior
    some { nodes := gd.1, links := gd.2
           chargeStrength := -400, collideIterations := 2
           centerX := width / 2, centerY := height / 2
           centerStrength := 0.1 }

/-! ## Drag gesture controller (source lines 742–753 and 872–941) -/

/-- JS truthiness of an optional string (used by the source's
`targetId && ...`, `d.noteId && ...`, `if (foundClusterId)` tests: `null`,
`undefined` and the empty string are falsy). -/
def strTruthy : Option String → Bool
  | some s => s ≠ ""
  | none => false

/-- The drag handler's hit test, square-compared form: the source computes
`Math.sqrt(dx*dx + dy*dy) < minDistance + other.r` with `minDistance = 50`;
over the rationals this is expressed without a square root as
`0 ≤ 50 + r ∧ dx² + dy² < (50 + r)²` (`sqrt s < t ↔ 0 ≤ t ∧ s < t²` for
`s ≥ 0`; `withinHitRange_iff_sqrt` below proves the equivalence). -/
def withinHitRange (dx dy r : ℚ) : Bool :=
  decide (0 ≤ 50 + r ∧ dx * dx + dy * dy < (50 + r) * (50 + r))

/-- The per-node qualification test of the drag handler's scan: the node is a
cluster, is not the dragged note's `originalClusterId`, and is within hit
range of the dragged note's current position (`d.x || 0` etc.: an undefined
coordinate is read as `0`). -/
def isHoverCandidate (d o : D3Node) : Bool :=
  decide (o.ty = NodeType.cluster) && decide (some o.id ≠ d.originalClusterId)
    && withinHitRange (d.x.getD 0 - o.x.getD 0) (d.y.getD 0 - o.y.getD 0) o.r

/-- One iteration of the drag handler's scan, updating `foundClusterId`: if
the visited node is a cluster other than the note's own origin and its
distance to the note is below `50 + other.r`, it becomes the found cluster;
otherwise the accumulator is kept. -/
def scanStep (d : D3Node) (acc : Option String) (o : D3Node) : Option String :=
  if o.ty = NodeType.cluster ∧ some o.id ≠ d.originalClusterId then
    if withinHitRange (d.x.getD 0 - o.x.getD 0) (d.y.getD 0 - o.y.getD 0)
        o.r then
      some o.id
    else acc
  else acc

/-- The drag handler's scan over `nodesRef.current` (source lines 887–901):
`foundClusterId` starts `null` and is overwritten by each qualifying cluster
node; the last qualifying node of the iteration wins. -/
def scanHover (nodes : List D3Node) (d : D3Node) : Option String :=
  nodes.foldl (scanStep d) none

/-- Pin a node to the pointer position: `d.fx = event.x; d.fy = event.y`. -/
def pinTo (d : D3Node) (ex ey : ℚ) : D3Node :=
  { d with fx := some ex, fy := some ey }

/-- Release a node's pin: `d.fx = null; d.fy = null`. -/
def unpin (d : D3Node) : D3Node :=
  { d with fx := none, fy := none }

/-- One emitted re-parent notification,
`onReparentRef.current(d.noteId, targetCluster.id, targetCluster.name)`; the
invoked callback is recorded by its tag so that *which* callback ran is
observable. -/
structure Reparent where
  callback : Nat
  noteId : String
  newClusterId : String
  newClusterName : String
deriving DecidableEq, Repr

/-- The mutable state the drag controller touches: the live node array
(`nodesRef.current`), the recorded hover target (`hoverTargetRef.current`),
the currently highlighted circle id (the yellow stroke; `none` = all strokes
default), the current re-parent callback slot (`onReparentRef.current`,
callbacks identified by tag, `none` = no callback registered), and the
simulation's alpha target. -/
structure CtrlState where
  nodes : List D3Node
  hoverTarget : Option String
  highlight : Option String
  onReparent : Option Nat
  alphaTarget : ℚ
deriving DecidableEq, Repr

/-- The events the controller reacts to: the collaborator registering a new
re-parent callback (the `useEffect` writing `onReparentRef.current`, lines
751–753), and the d3 drag gesture's start / drag / end events on the node at a
given index of the node array. -/
inductive GEvent where
  | setCallback : Option Nat → GEvent
  | dragStartEv : Nat → GEvent
  | dragMoveEv : Nat → ℚ → ℚ → GEvent
  | dragEndEv : Nat → GEvent
deriving DecidableEq, Repr

/-- One controller step: the transition function of the drag state machine,
returning the new state and the re-parent notifications emitted.

* `setCallback c` — `onReparentRef.current = onNodeReparent` (lines 751–753).
* `dragStartEv i` — the drag `start` handler (lines 874–881): pin the node at
  its current position (`d.fx = d.x; d.fy = d.y`), raise the alpha target to
  `0.3`, reset the hover target (`hoverTargetRef.current = null`).
* `dragMoveEv i ex ey` — the `drag` handler (lines 882–917): pin the node to
  the pointer; if it is a note, scan for a hover target, set the highlight to
  the found cluster (all strokes reset when nothing truthy is found) and store
  the scan result in `hoverTargetRef`; a non-note drag touches neither.
* `dragEndEv i` — the `end` handler (lines 918–939): drop the alpha target,
  unpin, clear all highlights; if the node is a note, the recorded hover
  target is truthy and a callback is registered, resolve the target id in
  `nodesRef.current` (first match) and — if found and the note has a truthy
  `noteId` — invoke the *currently registered* callback once; finally reset
  the hover target. -/
def step (st : CtrlState) (e : GEvent) : CtrlState × List Reparent :=
  match e with
  | GEvent.setCallback c => ({ st with onReparent := c }, [])
  | GEvent.dragStartEv i =>
    match st.nodes[i]? with
    | none => (st, [])
    | some d =>
      ({ st with nodes := st.nodes.set i { d with fx := d.x, fy := d.y }
                 alphaTarget := 0.3, hoverTarget := none }, [])
  | GEvent.dragMoveEv i ex ey =>
    match st.nodes[i]? with
    | none => (st, [])
    | some d =>
      let d2 := pinTo d ex ey
      let nodes2 := st.nodes.set i d2
      if d2.ty = NodeType.note then
        let found := scanHover nodes2 d2
        ({ st with nodes := nodes2
                   highlight := if strTruthy found then found else none
                   hoverTarget := found }, [])
      else
        ({ st with nodes := nodes2 }, [])
  | GEvent.dragEndEv i =>
    match st.nodes[i]? with
    | none => (st, [])
    | some d =>
      let nodes2 := st.nodes.set i (unpin d)
      let invs : List Reparent :=
        match st.hoverTarget, st.onReparent with
        | some tid, some cb =>
          if d.ty = NodeType.note ∧ tid ≠ "" then
            match nodes2.find? (fun n => n.id == tid) with
            | some tc =>
              match d.noteId with
              | some nid =>
                if nid ≠ "" then
                  [{ callback := cb, noteId := nid, newClusterId := tc.id
                     newClusterName := tc.name }]
                else []
              | none => []
            | none => []
          else []
        | _, _ => []
      ({ st with nodes := nodes2, hoverTarget := none, highlight := none
                 alphaTarget := 0 }, invs)

/-- Run a sequence of controller events in order, accumulating the emitted
re-parent notifications. -/
def run (st : CtrlState) : List GEvent → CtrlState × List Reparent
  | [] => (st, [])
  | e :: es =>
    let r := step st e
    let rest := run r.1 es
    (rest.1, r.2 ++ rest.2)

/-! ## Sample data used by the witnesses -/

/-- A sample group with one leaf, used to instantiate the rebuild theorems. -/
def sampleAI : Cluster :=
  { id := "g1", name := "AI"
    children := some [{ id := "c-n1", name := "Note 1", noteId := some "n1" }] }

/-- A sample prior generation: a node with id `g1` that is seeded and pinned,
so that the continuity copy and the pin-dropping are both exercised. -/
def samplePrior : List D3Node :=
  [{ id := "g1", name := "AI", ty := NodeType.cluster, noteId := none
     r := 25, originalClusterId := none
     x := some 7, y := some 8, vx := some 1, vy := some 2
     fx := some 9, fy := some 9 }]

/-- Sample drag-scene nodes: a root, the origin cluster `g1`, a note of `g1`
at the origin, and a second cluster `g2` within hit range of the note. -/
def wRoot : D3Node :=
  { rootNode with x := some 200, y := some 200 }

def wG1 : D3Node :=
  { id := "g1", name := "AI", ty := NodeType.cluster, noteId := none
    r := 25, originalClusterId := none
    x := some 500, y := some 0, vx := none, vy := none, fx := none, fy := none }

def wG2 : D3Node :=
  { id := "g2", name := "Cooking", ty := NodeType.cluster, noteId := none
    r := 25, originalClusterId := none
    x := some 30, y := some 40, vx := none, vy := none, fx := none, fy := none }

def wLeaf : D3Node :=
  { id := "c-n1", name := "Note 1", ty := NodeType.note, noteId := some "n1"
    r := 12, originalClusterId := some "g1"
    x := some 0, y := some 0, vx := none, vy := none, fx := none, fy := none }

def wState : CtrlState :=
  { nodes := [wRoot, wG1, wLeaf, wG2], hoverTarget := none, highlight := none
    onReparent := some 1, alphaTarget := 0 }

def wStateHover : CtrlState := { wState with hoverTarget := some "g2" }

def wLeafPinned : D3Node := { wLeaf with fx := some 0, fy := some 0 }

/-- A drag of the note at index 2: pointer-down, then one pointer-move. -/
def wEs : List GEvent := [GEvent.dragStartEv 2, GEvent.dragMoveEv 2 0 0]

/-- The simulation configuration the effect builds for the sample one-group
tree in an 800×600 viewport with no prior generation. -/
def sampleCfg : SimConfig :=
  { nodes := (updateGraphData [sampleAI] []).1
    links := (updateGraphData [sampleAI] []).2
    chargeStrength := -400, collideIterations := 2
    centerX := 800 / 2, centerY := 600 / 2, centerStrength := 0.1 }

/-- The node as pinned by the drag `start` handler:
`d.fx = d.x; d.fy = d.y`. -/
def startPin (d : D3Node) : D3Node := { d with fx := d.x, fy := d.y }

/-- The controller state after the drag `start` handler ran on the node at
index `i` (node pinned in place, alpha target raised to `0.3`, hover target
reset). -/
def startState (st : CtrlState) (i : Nat) (d : D3Node) : CtrlState :=
  { st with nodes := st.nodes.set i (startPin d)
            alphaTarget := 0.3, hoverTarget := none }

/-- All node ids occurring in an input tree (group ids and leaf ids), used to
express that an input tree contains duplicate ids. -/
def treeIds (clusters : List Cluster) : List String :=
  clusters.flatMap (fun c => c.id :: (c.children.getD []).map ClusterChild.id)

/-! ## Basic lemmas about the map and the merge -/

lemma existingNodesMap_go (l : List D3Node) (f : String → Option D3Node)
    (i : String) :
    (l.foldl (fun m d => fun k => if k = d.id then some d else m k) f) i
      = (l.reverse.find? (fun d => d.id == i)).or (f i) := by
  induction l generalizing f with
  | nil => simp
  | cons d t ih =>
    simp only [List.foldl_cons, List.reverse_cons, List.find?_append,
      Option.or_assoc, ih]
    congr 1
    by_cases h : d.id = i
    · simp [List.find?_cons, h]
    · simp [List.find?_cons, h, Ne.symm h]

/-- `existingNodesMap` looks an id up to the *last* node of the prior list
carrying that id (a JS `Map` built from a pair list is last-write-wins). -/
lemma existingNodesMap_eq_find? (l : List D3Node) (i : String) :
    existingNodesMap l i = l.reverse.find? (fun d => d.id == i) := by
  rw [existingNodesMap, existingNodesMap_go]
  simp

@[simp] lemma mergeNode_id (m : String → Option D3Node) (d : D3Node) :
    (mergeNode m d).id = d.id := by
  unfold mergeNode; cases m d.id <;> rfl

@[simp] lemma mergeNode_ty (m : String → Option D3Node) (d : D3Node) :
    (mergeNode m d).ty = d.ty := by
  unfold mergeNode; cases m d.id <;> rfl

@[simp] lemma mergeNode_name (m : String → Option D3Node) (d : D3Node) :
    (mergeNode m d).name = d.name := by
  unfold mergeNode; cases m d.id <;> rfl

@[simp] lemma mergeNode_noteId (m : String → Option D3Node) (d : D3Node) :
    (mergeNode m d).noteId = d.noteId := by
  unfold mergeNode; cases m d.id <;> rfl

@[simp] lemma mergeNode_r (m : String → Option D3Node) (d : D3Node) :
    (mergeNode m d).r = d.r := by
  unfold mergeNode; cases m d.id <;> rfl

@[simp] lemma mergeNode_originalClusterId (m : String → Option D3Node)
    (d : D3Node) : (mergeNode m d).originalClusterId = d.originalClusterId := by
  unfold mergeNode; cases m d.id <;> rfl

@[simp] lemma mergeNode_fx (m : String → Option D3Node) (d : D3Node) :
    (mergeNode m d).fx = d.fx := by
  unfold mergeNode; cases m d.id <;> rfl

@[simp] lemma mergeNode_fy (m : String → Option D3Node) (d : D3Node) :
    (mergeNode m d).fy = d.fy := by
  unfold mergeNode; cases m d.id <;> rfl

lemma mergeNode_phys (m : String → Option D3Node) (d : D3Node) :
    phys (mergeNode m d) = ((m d.id).map phys).getD (phys d) := by
  unfold mergeNode
  cases m d.id <;> simp [phys]

/-- Membership in the freshly emitted node list: the root node, a cluster node
of some group of the tree, or a note node of some child of some group. -/
lemma mem_newNodes {clusters : List Cluster} {d : D3Node} :
    d ∈ newNodes clusters ↔
      d = rootNode ∨ ∃ c ∈ clusters,
        d = clusterNodeOf c ∨ ∃ n ∈ c.children.getD [], d = noteNodeOf c n := by
  simp only [newNodes, List.mem_cons, List.mem_flatMap, clusterEmittedNodes,
    List.mem_map]
  constructor
  · rintro (rfl | ⟨c, hc, rfl | ⟨n, hn, rfl⟩⟩)
    · exact Or.inl rfl
    · exact Or.inr ⟨c, hc, Or.inl rfl⟩
    · exact Or.inr ⟨c, hc, Or.inr ⟨n, hn, rfl⟩⟩
  · rintro (rfl | ⟨c, hc, rfl | ⟨n, hn, rfl⟩⟩)
    · exact Or.inl rfl
    · exact Or.inr ⟨c, hc, Or.inl rfl⟩
    · exact Or.inr ⟨c, hc, Or.inr ⟨n, hn, rfl⟩⟩

/-- Every freshly emitted node is unseeded and unpinned: `updateGraphData`
constructs nodes without `x`, `y`, `vx`, `vy`, `fx`, `fy`. -/
lemma newNodes_unseeded {clusters : List Cluster} {d : D3Node}
    (h : d ∈ newNodes clusters) :
    d.x = none ∧ d.y = none ∧ d.vx = none ∧ d.vy = none
      ∧ d.fx = none ∧ d.fy = none := by
  rcases mem_newNodes.1 h with rfl | ⟨c, _, rfl | ⟨n, _, rfl⟩⟩ <;>
    simp [rootNode, clusterNodeOf, noteNodeOf]

/-- The only root-kind emitted node is the root node itself. -/
lemma newNodes_root_eq {clusters : List Cluster} {d : D3Node}
    (h : d ∈ newNodes clusters) (hty : d.ty = NodeType.root) :
    d = rootNode := by
  rcases mem_newNodes.1 h with rfl | ⟨c, _, rfl | ⟨n, _, rfl⟩⟩
  · rfl
  · simp [clusterNodeOf] at hty
  · simp [noteNodeOf] at hty

/-- Membership in the freshly emitted link list. -/
lemma mem_newLinks {clusters : List Cluster} {l : D3Link} :
    l ∈ newLinks clusters ↔
      ∃ c ∈ clusters, l = { source := "root", target := c.id }
        ∨ ∃ n ∈ c.children.getD [], l = { source := c.id, target := n.id } := by
  simp only [newLinks, List.mem_flatMap, clusterEmittedLinks, List.mem_cons,
    List.mem_map]
  constructor
  · rintro ⟨c, hc, rfl | ⟨n, hn, rfl⟩⟩
    · exact ⟨c, hc, Or.inl rfl⟩
    · exact ⟨c, hc, Or.inr ⟨n, hn, rfl⟩⟩
  · rintro ⟨c, hc, rfl | ⟨n, hn, rfl⟩⟩
    · exact ⟨c, hc, Or.inl rfl⟩
    · exact ⟨c, hc, Or.inr ⟨n, hn, rfl⟩⟩

/-! ## Lookup lemmas for the rebuilt generation -/

/-- In a node list with pairwise distinct ids, searching by a member's id
finds exactly that member. -/
lemma find?_id_of_nodup {nodes : List D3Node} {a : D3Node}
    (hnd : (nodes.map D3Node.id).Nodup) (ha : a ∈ nodes) :
    nodes.find? (fun n => n.id == a.id) = some a := by
  induction nodes with
  | nil => simp at ha
  | cons b t ih =>
    simp only [List.map_cons, List.nodup_cons, List.mem_map] at hnd
    rcases List.mem_cons.1 ha with rfl | ha'
    · simp [List.find?_cons]
    · have hb : (b.id == a.id) = false := by
        simp only [beq_eq_false_iff_ne, ne_eq]
        intro he
        exact hnd.1 ⟨a, ha', he.symm⟩
      simp only [List.find?_cons, hb]
      exact ih hnd.2 ha'

/-- d3's id resolution (`nodeById`) on a node list with pairwise distinct ids
resolves a member's id to that member. -/
lemma nodeById_of_nodup {nodes : List D3Node} {a : D3Node}
    (hnd : (nodes.map D3Node.id).Nodup) (ha : a ∈ nodes) :
    nodeById nodes a.id = some a := by
  rw [nodeById, existingNodesMap_eq_find?]
  exact find?_id_of_nodup
    (by simpa [List.map_reverse] using List.nodup_reverse.2 hnd)
    (List.mem_reverse.2 ha)

/-- The lookup map built from a rebuilt generation sends every id occurring in
the emitted node list to the merge of the last emitted node with that id. -/
lemma lookup_merged (clusters : List Cluster) (prior : List D3Node)
    {d : D3Node} (hd : d ∈ newNodes clusters) :
    ∃ d' ∈ newNodes clusters, d'.id = d.id ∧
      existingNodesMap
          ((newNodes clusters).map (mergeNode (existingNodesMap prior))) d.id
        = some (mergeNode (existingNodesMap prior) d') := by
  rw [existingNodesMap_eq_find?, ← List.map_reverse, List.find?_map]
  have hpred : ((fun n => n.id == d.id) ∘ mergeNode (existingNodesMap prior))
      = fun n => n.id == d.id := by
    funext n
    simp [Function.comp]
  rw [hpred]
  have hsome : ((newNodes clusters).reverse.find?
      (fun n => n.id == d.id)).isSome := by
    rw [List.find?_isSome]
    exact ⟨d, List.mem_reverse.2 hd, by simp⟩
  rcases Option.isSome_iff_exists.1 hsome with ⟨d', hd'⟩
  refine ⟨d', List.mem_reverse.1 (List.mem_of_find?_eq_some hd'), ?_, ?_⟩
  · simpa using List.find?_some hd'
  · rw [hd']
    rfl

/-! ## Idempotence of the continuity merge -/

/-- Merging an emitted node against a just-rebuilt generation gives the same
node as merging it against the generation that rebuild itself merged against:
the copied `{x,y,vx,vy}` values are stable under a second rebuild. -/
lemma mergeNode_idem (clusters : List Cluster) (prior : List D3Node) :
    ∀ d ∈ newNodes clusters,
      mergeNode (existingNodesMap
          ((newNodes clusters).map (mergeNode (existingNodesMap prior)))) d
        = mergeNode (existingNodesMap prior) d := by
  intro d hd
  obtain ⟨d', hd', hid, hlook⟩ := lookup_merged clusters prior hd
  cases hm : existingNodesMap prior d.id with
  | some old =>
    have hm' : existingNodesMap prior d'.id = some old := by rw [hid, hm]
    simp [mergeNode, hlook, hm, hm']
  | none =>
    have hm' : existingNodesMap prior d'.id = none := by rw [hid, hm]
    obtain ⟨hx, hy, hvx, hvy, -, -⟩ := newNodes_unseeded hd
    obtain ⟨hx', hy', hvx', hvy', -, -⟩ := newNodes_unseeded hd'
    simp only [mergeNode, hlook, hm, hm']
    ext <;> simp [hx, hy, hvx, hvy, hx', hy', hvx', hvy']

/-- A second `updateGraphData` with the same tree, fed the generation the
first one produced, reproduces that generation (and its links) exactly. -/
lemma updateGraphData_idem (clusters : List Cluster) (prior : List D3Node) :
    updateGraphData clusters (updateGraphData clusters prior).1
      = updateGraphData clusters prior := by
  simp only [updateGraphData, Prod.mk.injEq]
  exact ⟨List.map_congr_left (mergeNode_idem clusters prior), trivial⟩

/-! ## Scan characterization -/

/-- The nested conditionals of one scan iteration collapse to a single test of
`isHoverCandidate`. -/
lemma scanStep_eq (d : D3Node) (acc : Option String) (o : D3Node) :
    scanStep d acc o = if isHoverCandidate d o then some o.id else acc := by
  unfold scanStep isHoverCandidate
  by_cases h1 : o.ty = NodeType.cluster
  · by_cases h2 : some o.id ≠ d.originalClusterId
    · by_cases h3 : withinHitRange (d.x.getD 0 - o.x.getD 0)
          (d.y.getD 0 - o.y.getD 0) o.r
      · simp [h1, h2, h3]
      · simp [h1, h2, h3]
    · simp [h1, h2]
  · simp [h1]

lemma scanHover_go (d : D3Node) (l : List D3Node) (acc : Option String) :
    l.foldl (scanStep d) acc
      = ((l.reverse.find? (isHoverCandidate d)).map D3Node.id).or acc := by
  induction l generalizing acc with
  | nil => simp
  | cons o t ih =>
    simp only [List.foldl_cons, ih, List.reverse_cons, List.find?_append]
    cases ht : t.reverse.find? (isHoverCandidate d) with
    | some x => simp
    | none =>
      simp only [Option.none_or, scanStep_eq]
      cases ho : isHoverCandidate d o <;> simp [List.find?_cons, ho]

/-- The scan records exactly the last node of the iteration that qualifies as
a hover candidate (`none` when no node qualifies). -/
lemma scanHover_eq_find? (nodes : List D3Node) (d : D3Node) :
    scanHover nodes d
      = (nodes.reverse.find? (isHoverCandidate d)).map D3Node.id := by
  rw [scanHover, scanHover_go]
  simp

/-! ## Run lemmas for the drag controller -/

lemma run_nil (st : CtrlState) : run st [] = (st, []) := rfl

lemma run_cons (st : CtrlState) (e : GEvent) (es : List GEvent) :
    run st (e :: es)
      = ((run (step st e).1 es).1,
         (step st e).2 ++ (run (step st e).1 es).2) := rfl

lemma run_append (st : CtrlState) (es₁ es₂ : List GEvent) :
    run st (es₁ ++ es₂)
      = ((run (run st es₁).1 es₂).1,
         (run st es₁).2 ++ (run (run st es₁).1 es₂).2) := by
  induction es₁ generalizing st with
  | nil => simp [run]
  | cons e t ih =>
    simp only [List.cons_append, run_cons, ih, List.append_assoc]

/-! ## Step lemmas for the drag controller -/

@[simp] lemma pinTo_ty (d : D3Node) (ex ey : ℚ) : (pinTo d ex ey).ty = d.ty :=
  rfl

@[simp] lemma unpin_ty (d : D3Node) : (unpin d).ty = d.ty := rfl

lemma step_setCallback (st : CtrlState) (c : Option Nat) :
    step st (GEvent.setCallback c) = ({ st with onReparent := c }, []) := rfl

lemma step_dragStart (st : CtrlState) (i : Nat) (d : D3Node)
    (hd : st.nodes[i]? = some d) :
    step st (GEvent.dragStartEv i) = (startState st i d, []) := by
  simp [step, hd, startState, startPin]

lemma step_dragMove_note (st : CtrlState) (i : Nat) (d : D3Node) (ex ey : ℚ)
    (hd : st.nodes[i]? = some d) (hty : d.ty = NodeType.note) :
    step st (GEvent.dragMoveEv i ex ey)
      = (let nodes2 := st.nodes.set i (pinTo d ex ey)
         let found := scanHover nodes2 (pinTo d ex ey)
         ({ st with nodes := nodes2
                    highlight := if strTruthy found then found else none
                    hoverTarget := found }, [])) := by
  simp [step, hd, hty]

lemma step_dragMove_other (st : CtrlState) (i : Nat) (d : D3Node) (ex ey : ℚ)
    (hd : st.nodes[i]? = some d) (hty : d.ty ≠ NodeType.note) :
    step st (GEvent.dragMoveEv i ex ey)
      = ({ st with nodes := st.nodes.set i (pinTo d ex ey) }, []) := by
  simp [step, hd, hty]

lemma step_dragEnd_state (st : CtrlState) (i : Nat) (d : D3Node)
    (hd : st.nodes[i]? = some d) :
    (step st (GEvent.dragEndEv i)).1
      = { st with nodes := st.nodes.set i (unpin d), hoverTarget := none
                  highlight := none, alphaTarget := 0 } := by
  simp [step, hd]

lemma step_dragEnd_invs_noHover (st : CtrlState) (i : Nat) (d : D3Node)
    (hd : st.nodes[i]? = some d) (hhov : st.hoverTarget = none) :
    (step st (GEvent.dragEndEv i)).2 = [] := by
  cases hcb : st.onReparent <;> simp [step, hd, hhov, hcb]

lemma step_dragEnd_invs_notNote (st : CtrlState) (i : Nat) (d : D3Node)
    (hd : st.nodes[i]? = some d) (hty : d.ty ≠ NodeType.note) :
    (step st (GEvent.dragEndEv i)).2 = [] := by
  cases hhov : st.hoverTarget <;> cases hcb : st.onReparent <;>
    simp [step, hd, hhov, hcb, hty]

lemma step_dragEnd_invs_some (st : CtrlState) (i : Nat) (d tc : D3Node)
    (nid tid : String) (cb : Nat)
    (hd : st.nodes[i]? = some d) (hty : d.ty = NodeType.note)
    (hnid : d.noteId = some nid) (hnid2 : nid ≠ "")
    (hhov : st.hoverTarget = some tid) (htid : tid ≠ "")
    (hcb : st.onReparent = some cb)
    (hfind : (st.nodes.set i (unpin d)).find? (fun n => n.id == tid)
      = some tc) :
    (step st (GEvent.dragEndEv i)).2
      = [{ callback := cb, noteId := nid, newClusterId := tc.id
           newClusterName := tc.name }] := by
  simp [step, hd, hhov, hcb, hty, htid, hfind, hnid, hnid2]

/-- Running any sequence of pointer-moves of a dragged non-note node emits no
notification, leaves the hover target clear (given it was clear), and keeps
the dragged node's kind. -/
lemma run_moves_other (i : Nat) (moves : List (ℚ × ℚ)) :
    ∀ (st : CtrlState) (d : D3Node), st.nodes[i]? = some d →
      d.ty ≠ NodeType.note → st.hoverTarget = none →
      (run st (moves.map fun m => GEvent.dragMoveEv i m.1 m.2)).2 = []
      ∧ (run st (moves.map fun m =>
          GEvent.dragMoveEv i m.1 m.2)).1.hoverTarget = none
      ∧ ∃ d2, (run st (moves.map fun m =>
          GEvent.dragMoveEv i m.1 m.2)).1.nodes[i]? = some d2
          ∧ d2.ty = d.ty := by
  induction moves with
  | nil =>
    intro st d hd hty hhov
    exact ⟨rfl, hhov, d, hd, rfl⟩
  | cons mv t ih =>
    intro st d hd hty hhov
    have hstep := step_dragMove_other st i d mv.1 mv.2 hd hty
    have hlen : i < st.nodes.length := (List.getElem?_eq_some_iff.mp hd).1
    have hd' : (st.nodes.set i (pinTo d mv.1 mv.2))[i]?
        = some (pinTo d mv.1 mv.2) := by
      exact List.getElem?_set_self (by simpa using hlen)
    obtain ⟨h1, h2, d2, h3, h4⟩ :=
      ih { st with nodes := st.nodes.set i (pinTo d mv.1 mv.2) }
        (pinTo d mv.1 mv.2) hd' (by simpa [pinTo_ty] using hty) hhov
    rw [List.map_cons, run_cons, hstep]
    exact ⟨by simpa using h1, h2, d2, h3, by rw [h4, pinTo_ty]⟩

/-- The square-compared hit test agrees with the source's
`Math.sqrt(dx*dx + dy*dy) < 50 + r`, read over the real numbers. -/
lemma withinHitRange_iff_sqrt (dx dy r : ℚ) :
    withinHitRange dx dy r = true
      ↔ Real.sqrt ((dx : ℝ) * (dx : ℝ) + (dy : ℝ) * (dy : ℝ))
          < 50 + (r : ℝ) := by
  rw [withinHitRange, decide_eq_true_iff]
  constructor
  · rintro ⟨h0, hlt⟩
    have h0' : (0 : ℝ) ≤ 50 + (r : ℝ) := by exact_mod_cast h0
    have hs : (0 : ℝ) ≤ (dx : ℝ) * dx + (dy : ℝ) * dy :=
      add_nonneg (mul_self_nonneg _) (mul_self_nonneg _)
    have hlt' : ((dx : ℝ) * dx + (dy : ℝ) * dy)
        < (50 + (r : ℝ)) * (50 + (r : ℝ)) := by exact_mod_cast hlt
    rcases eq_or_lt_of_le h0' with he | hpos
    · exfalso
      rw [← he, mul_zero] at hlt'
      exact absurd (lt_of_le_of_lt hs hlt') (lt_irrefl 0)
    · rw [Real.sqrt_lt' hpos, pow_two]
      exact hlt'
  · intro h
    have hpos : (0 : ℝ) < 50 + (r : ℝ) :=
      lt_of_le_of_lt (Real.sqrt_nonneg _) h
    have hlt' := (Real.sqrt_lt' hpos).1 h
    rw [pow_two] at hlt'
    exact ⟨by exact_mod_cast hpos.le, by exact_mod_cast hlt'⟩

/-- Every node emitted for a group (its cluster node and its note nodes) is of
cluster or note kind, never root. -/
lemma flatMap_ty {clusters : List Cluster} {d : D3Node}
    (h : d ∈ clusters.flatMap clusterEmittedNodes) :
    d.ty = NodeType.cluster ∨ d.ty = NodeType.note := by
  rcases List.mem_flatMap.1 h with ⟨c, _, hd⟩
  simp only [clusterEmittedNodes, List.mem_cons, List.mem_map] at hd
  rcases hd with rfl | ⟨n, _, rfl⟩
  · exact Or.inl rfl
  · exact Or.inr rfl

/-! ## Claim theorems -/

/-- Claim C1: on pointer-up of a dragged leaf (note) node, the hover target is
reset to none; if a hover target was recorded and a re-parent callback is
currently registered, the callback is invoked exactly once with the leaf's
`leafRef` (`noteId`), the target group's id and the target group's name; if
no hover target was recorded, it is invoked zero times. -/
theorem reparentOnDragEnd (st : CtrlState) (i : Nat) (d : D3Node)
    (hd : st.nodes[i]? = some d) (hty : d.ty = NodeType.note) :
    (step st (GEvent.dragEndEv i)).1.hoverTarget = none
    ∧ (∀ (nid tid : String) (cb : Nat) (tc : D3Node),
        d.noteId = some nid → nid ≠ "" →
        st.hoverTarget = some tid → tid ≠ "" → st.onReparent = some cb →
        (st.nodes.set i (unpin d)).find? (fun n => n.id == tid) = some tc →
        (step st (GEvent.dragEndEv i)).2
          = [{ callback := cb, noteId := nid, newClusterId := tc.id
               newClusterName := tc.name }])
    ∧ (st.hoverTarget = none → (step st (GEvent.dragEndEv i)).2 = []) := by
  refine ⟨?_, ?_, ?_⟩
  · rw [step_dragEnd_state st i d hd]
  · intro nid tid cb tc h1 h2 h3 h4 h5 h6
    exact step_dragEnd_invs_some st i d tc nid tid cb hd hty h1 h2 h3 h4 h5 h6
  · intro hhov
    exact step_dragEnd_invs_noHover st i d hd hhov

/-- Witness for C1: in the sample scene with recorded hover target `g2` and
registered callback `1`, releasing the dragged note emits exactly
`(1, "n1", "g2", "Cooking")` and resets the hover target. -/
theorem reparentOnDragEndWitness :
    (step wStateHover (GEvent.dragEndEv 2)).2
      = [{ callback := 1, noteId := "n1", newClusterId := "g2"
           newClusterName := "Cooking" }]
    ∧ (step wStateHover (GEvent.dragEndEv 2)).1.hoverTarget = none := by
  have h := reparentOnDragEnd wStateHover 2 wLeaf rfl rfl
  exact ⟨h.2.1 "n1" "g2" 1 wG2 rfl (by decide) rfl (by decide) rfl (by decide),
    h.1⟩

/-- Claim C2: on a pointer-move of a dragged note (leaf) node, the hover
target becomes the id of the last node scanned that is a cluster other than
the leaf's own `originalClusterId` and lies within Euclidean distance
`50 + radius` of the leaf (`none` when no node qualifies); dragging a root or
cluster (group) node never produces a hover target during the whole drag and
the completed drag invokes no re-parent callback. -/
theorem hoverScanOnDragMove :
    (∀ (st : CtrlState) (i : Nat) (d : D3Node) (ex ey : ℚ),
      st.nodes[i]? = some d → d.ty = NodeType.note →
      (step st (GEvent.dragMoveEv i ex ey)).1.hoverTarget
        = ((st.nodes.set i (pinTo d ex ey)).reverse.find?
            (isHoverCandidate (pinTo d ex ey))).map D3Node.id)
    ∧ (∀ (st : CtrlState) (i : Nat) (d : D3Node)
        (moves pre suf : List (ℚ × ℚ)),
      st.nodes[i]? = some d →
      (d.ty = NodeType.root ∨ d.ty = NodeType.cluster) →
      moves = pre ++ suf →
      (run st (GEvent.dragStartEv i ::
          ((moves.map fun m => GEvent.dragMoveEv i m.1 m.2)
            ++ [GEvent.dragEndEv i]))).2 = []
      ∧ (run st (GEvent.dragStartEv i ::
          (pre.map fun m => GEvent.dragMoveEv i m.1 m.2))).1.hoverTarget
          = none) := by
  constructor
  · intro st i d ex ey hd hty
    rw [step_dragMove_note st i d ex ey hd hty]
    exact scanHover_eq_find? _ _
  · intro st i d moves pre suf hd hty hsplit
    have htyn : d.ty ≠ NodeType.note := by
      rcases hty with h | h <;> simp [h]
    have hlen : i < st.nodes.length := (List.getElem?_eq_some_iff.mp hd).1
    have hstart := step_dragStart st i d hd
    have hd1 : (startState st i d).nodes[i]? = some (startPin d) := by
      simpa [startState] using
        List.getElem?_set_self (l := st.nodes) (a := startPin d) hlen
    have htyn1 : (startPin d).ty ≠ NodeType.note := htyn
    have hhov1 : (startState st i d).hoverTarget = none := rfl
    constructor
    · rw [run_cons, hstart]
      obtain ⟨hm1, hm2, d2, hm3, hm4⟩ :=
        run_moves_other i moves (startState st i d) (startPin d) hd1 htyn1
          hhov1
      rw [run_append, run_cons, run_nil]
      have hend := step_dragEnd_invs_noHover _ i d2 hm3 hm2
      simp [hm1, hend]
    · rw [run_cons, hstart]
      obtain ⟨-, hm2, -⟩ :=
        run_moves_other i pre (startState st i d) (startPin d) hd1 htyn1 hhov1
      exact hm2

/-- Witness for C2: moving the dragged sample note at the origin records the
in-range cluster `g2` as hover target, and a full drag of the cluster node
`g1` emits no re-parent notification and records no hover target. -/
theorem hoverScanOnDragMoveWitness :
    (step wState (GEvent.dragMoveEv 2 0 0)).1.hoverTarget = some "g2"
    ∧ (run wState [GEvent.dragStartEv 1, GEvent.dragEndEv 1]).2 = []
    ∧ (run wState [GEvent.dragStartEv 1]).1.hoverTarget = none := by
  refine ⟨?_, ?_, ?_⟩
  · rw [hoverScanOnDragMove.1 wState 2 wLeaf 0 0 rfl rfl]
    norm_num [wState, wRoot, wG1, wG2, wLeaf, rootNode, pinTo,
      isHoverCandidate, withinHitRange, List.find?]
    decide
  · exact (hoverScanOnDragMove.2 wState 1 wG1 [] [] [] rfl
      (Or.inr rfl) rfl).1
  · exact (hoverScanOnDragMove.2 wState 1 wG1 [] [] [] rfl
      (Or.inr rfl) rfl).2

/-- Claim C3: rebuilding twice with the same tree and the same resulting prior
generation changes nothing — the second rebuild reproduces the first exactly,
so every surviving node keeps its `{x,y,vx,vy}`; the merge step copies exactly
these four fields from the prior node with the same id when one exists, and
every emitted node is unseeded, so nodes with no prior match stay unseeded. -/
theorem rebuildContinuity (clusters : List Cluster) (prior : List D3Node)
    (d : D3Node) (hd : d ∈ newNodes clusters) :
    updateGraphData clusters (updateGraphData clusters prior).1
      = updateGraphData clusters prior
    ∧ phys (mergeNode (existingNodesMap prior) d)
        = ((existingNodesMap prior d.id).map phys).getD (phys d)
    ∧ phys d = (none, none, none, none) := by
  refine ⟨updateGraphData_idem clusters prior, mergeNode_phys _ _, ?_⟩
  obtain ⟨hx, hy, hvx, hvy, -, -⟩ := newNodes_unseeded hd
  simp [phys, hx, hy, hvx, hvy]

/-- Witness for C3: instantiated at the sample one-group tree and a seeded
prior generation. -/
theorem rebuildContinuityWitness :
    updateGraphData [sampleAI] (updateGraphData [sampleAI] samplePrior).1
      = updateGraphData [sampleAI] samplePrior
    ∧ phys (mergeNode (existingNodesMap samplePrior) (clusterNodeOf sampleAI))
        = ((existingNodesMap samplePrior (clusterNodeOf sampleAI).id).map
            phys).getD (phys (clusterNodeOf sampleAI))
    ∧ phys (clusterNodeOf sampleAI) = (none, none, none, none) :=
  rebuildContinuity [sampleAI] samplePrior (clusterNodeOf sampleAI)
    (mem_newNodes.2 (Or.inr ⟨sampleAI, by simp, Or.inl rfl⟩))

/-- Claim C4: the re-parent callback invoked on pointer-up is the one held by
the callback slot at that moment — the slot being updated by every
`setCallback` — and not the callback registered when the drag began: for any
prior event history `es` from any initial state `st` (hence any initially
registered callback), re-registering `c1` before the pointer-up makes the
pointer-up invoke `c1`. -/
theorem latestCallbackInvoked (st st1 : CtrlState) (out1 : List Reparent)
    (es : List GEvent) (i : Nat) (c1 : Nat) (d tc : D3Node) (nid tid : String)
    (hrun : run st es = (st1, out1))
    (hd : st1.nodes[i]? = some d) (hty : d.ty = NodeType.note)
    (hnid : d.noteId = some nid) (hnid2 : nid ≠ "")
    (hhov : st1.hoverTarget = some tid) (htid : tid ≠ "")
    (hfind : (st1.nodes.set i (unpin d)).find? (fun n => n.id == tid)
      = some tc) :
    (run st (es ++ [GEvent.setCallback (some c1), GEvent.dragEndEv i])).2
      = out1 ++ [{ callback := c1, noteId := nid, newClusterId := tc.id
                   newClusterName := tc.name }] := by
  rw [run_append, hrun]
  have hend := step_dragEnd_invs_some { st1 with onReparent := some c1 } i d
    tc nid tid c1 hd hty hnid hnid2 hhov htid rfl hfind
  rw [run_cons, step_setCallback, run_cons, run_nil]
  simp [hend]

/-- Witness for C4: in the sample drag (note picked up and moved over `g2`
with callback `1` registered), registering callback `5` before release makes
the release invoke callback `5`. -/
theorem latestCallbackInvokedWitness :
    (run wState (wEs ++ [GEvent.setCallback (some 5), GEvent.dragEndEv 2])).2
      = (run wState wEs).2
          ++ [{ callback := 5, noteId := "n1", newClusterId := "g2"
                newClusterName := "Cooking" }] := by
  refine latestCallbackInvoked wState (run wState wEs).1 (run wState wEs).2
    wEs 2 5 wLeafPinned wG2 "n1" "g2" rfl ?_ ?_ ?_ (by decide) ?_
    (by decide) ?_
  · norm_num [run, step, wEs, wState, wRoot, wG1, wG2, wLeaf, wLeafPinned,
      rootNode, pinTo, scanHover, scanStep, withinHitRange, strTruthy,
      List.find?]
  · rfl
  · rfl
  · norm_num [run, step, wEs, wState, wRoot, wG1, wG2, wLeaf, wLeafPinned,
      rootNode, pinTo, scanHover, scanStep, withinHitRange, strTruthy,
      List.find?]
    decide
  · norm_num [run, step, wEs, wState, wRoot, wG1, wG2, wLeaf, wLeafPinned,
      rootNode, pinTo, scanHover, scanStep, withinHitRange, strTruthy, unpin,
      List.find?]
    decide

/-- Claim C5: the simulation the effect creates is configured with the
specified constants — charge strength `-400` for all nodes, collision radius
`radius * 1.5` with `2` relaxation passes, centering strength `0.1`, and every
link reports target distance `120` when its resolved source is the root
(root–group edges) and `60` otherwise (group–leaf edges); with the
generation's ids pairwise distinct, links sourced at `"root"` resolve to the
root node and all other links resolve to their cluster node. -/
theorem forceConfiguration (clusters : List Cluster) (prior : List D3Node)
    (svgP contP : Bool) (w h : ℚ) (cfg : SimConfig)
    (hcfg : clusterGraphEffect clusters svgP contP w h prior = some cfg)
    (hids : (cfg.nodes.map D3Node.id).Nodup) :
    cfg.chargeStrength = -400
    ∧ cfg.collideIterations = 2
    ∧ (∀ q : ℚ, collideRadius q = q * 1.5)
    ∧ cfg.centerStrength = 0.1
    ∧ ∀ l ∈ cfg.links,
        (l.source = "root" → linkTargetDistance cfg.nodes l = some 120)
        ∧ (l.source ≠ "root" → linkTargetDistance cfg.nodes l = some 60) := by
  rw [clusterGraphEffect] at hcfg
  split_ifs at hcfg
  obtain rfl : _ = cfg := Option.some.inj hcfg
  refine ⟨rfl, rfl, fun q => rfl, rfl, ?_⟩
  intro l hl
  constructor
  · intro hsrc
    have hrootMem : mergeNode (existingNodesMap prior) rootNode
        ∈ (updateGraphData clusters prior).1 :=
      List.mem_map.2 ⟨rootNode, mem_newNodes.2 (Or.inl rfl), rfl⟩
    have hres := nodeById_of_nodup hids hrootMem
    rw [mergeNode_id, show rootNode.id = "root" from rfl] at hres
    rw [linkTargetDistance, hsrc, hres]
    simp [linkDistance, rootNode]
  · intro hsrc
    rcases mem_newLinks.1 hl with ⟨c, hc, rfl | ⟨n, hn, rfl⟩⟩
    · exact absurd rfl hsrc
    · have hcMem : mergeNode (existingNodesMap prior) (clusterNodeOf c)
          ∈ (updateGraphData clusters prior).1 :=
        List.mem_map.2
          ⟨clusterNodeOf c, mem_newNodes.2 (Or.inr ⟨c, hc, Or.inl rfl⟩), rfl⟩
      have hres := nodeById_of_nodup hids hcMem
      rw [mergeNode_id, show (clusterNodeOf c).id = c.id from rfl] at hres
      rw [linkTargetDistance]
      show Option.map linkDistance
        (nodeById (updateGraphData clusters prior).1 c.id) = some 60
      rw [hres]
      simp [linkDistance, clusterNodeOf]

/-- Witness for C5: the configuration the effect builds for the sample
one-group tree in an 800×600 viewport carries the specified constants, its
root–group edge reports distance 120 and its group–leaf edge reports 60. -/
theorem forceConfigurationWitness :
    sampleCfg.chargeStrength = -400 ∧ sampleCfg.collideIterations = 2
    ∧ collideRadius 12 = 12 * 1.5
    ∧ sampleCfg.centerStrength = 0.1
    ∧ linkTargetDistance sampleCfg.nodes
        { source := "root", target := "g1" } = some 120
    ∧ linkTargetDistance sampleCfg.nodes
        { source := "g1", target := "c-n1" } = some 60 := by
  have h := forceConfiguration [sampleAI] [] true true 800 600 sampleCfg rfl
    (by decide)
  exact ⟨h.1, h.2.1, h.2.2.1 12, h.2.2.2.1,
    (h.2.2.2.2 { source := "root", target := "g1" } (by decide)).1 rfl,
    (h.2.2.2.2 { source := "g1", target := "c-n1" } (by decide)).2
      (by decide)⟩

/-- Claim C6: for every non-empty input tree, the rebuilt generation contains
exactly one node of root kind — the merged synthesized root — and that node
carries no `leafRef` (`noteId`). -/
theorem uniqueRootPerGeneration (clusters : List Cluster)
    (prior : List D3Node) (hne : clusters ≠ []) :
    (updateGraphData clusters prior).1.filter (fun n => n.ty == NodeType.root)
      = [mergeNode (existingNodesMap prior) rootNode]
    ∧ ∀ n ∈ (updateGraphData clusters prior).1,
        n.ty = NodeType.root → n.noteId = none := by
  constructor
  · show ((newNodes clusters).map
        (mergeNode (existingNodesMap prior))).filter
          (fun n => n.ty == NodeType.root) = _
    rw [newNodes, List.map_cons, List.filter_cons]
    have hroot : ((mergeNode (existingNodesMap prior) rootNode).ty
        == NodeType.root) = true := by
      simp [rootNode]
    rw [hroot]
    simp only [if_true]
    have htail : ((clusters.flatMap clusterEmittedNodes).map
        (mergeNode (existingNodesMap prior))).filter
          (fun n => n.ty == NodeType.root) = [] := by
      rw [List.filter_eq_nil_iff]
      intro a ha
      rcases List.mem_map.1 ha with ⟨b, hb, rfl⟩
      rcases flatMap_ty hb with hty | hty <;> simp [hty]
    rw [htail]
  · intro n hn hty
    rcases List.mem_map.1 hn with ⟨b, hb, rfl⟩
    rw [mergeNode_ty] at hty
    rw [mergeNode_noteId]
    rw [newNodes_root_eq hb hty]
    rfl

/-- Witness for C6: the sample one-group tree is non-empty and satisfies the
root invariant. -/
theorem uniqueRootPerGenerationWitness :
    (updateGraphData [sampleAI] samplePrior).1.filter
        (fun n => n.ty == NodeType.root)
      = [mergeNode (existingNodesMap samplePrior) rootNode]
    ∧ ∀ n ∈ (updateGraphData [sampleAI] samplePrior).1,
        n.ty = NodeType.root → n.noteId = none :=
  uniqueRootPerGeneration [sampleAI] samplePrior (by simp)

/-- Claim C7: the empty input tree rebuilds to a single root node with no
edges, and the effect creates no simulation for it (the `useEffect` guard
returns before any simulation or rendering is set up): a no-op layout. -/
theorem emptyTreeNoOp (prior : List D3Node) (svgP contP : Bool) (w h : ℚ) :
    (updateGraphData [] prior).1
      = [mergeNode (existingNodesMap prior) rootNode]
    ∧ (mergeNode (existingNodesMap prior) rootNode).ty = NodeType.root
    ∧ (updateGraphData [] prior).2 = []
    ∧ clusterGraphEffect [] svgP contP w h prior = none := by
  refine ⟨rfl, ?_, rfl, rfl⟩
  simp [rootNode]

/-- Claim C8 (amended): the effect's guard tests only that the cluster list is
non-empty and both DOM refs are present; the viewport size is not checked, so
with a zero-area viewport the simulation is still created — centered at
`(width / 2, height / 2) = (0, 0)` — and no division by the viewport
dimensions (hence no division by zero) occurs anywhere in the setup. -/
theorem zeroViewportGuard (clusters : List Cluster) (prior : List D3Node)
    (svgP contP : Bool) (w h : ℚ) :
    (clusterGraphEffect clusters svgP contP w h prior = none
      ↔ clusters = [] ∨ svgP = false ∨ contP = false)
    ∧ (clusters ≠ [] →
        ∃ cfg, clusterGraphEffect clusters true true 0 0 prior = some cfg
          ∧ cfg.centerX = 0 ∧ cfg.centerY = 0
          ∧ cfg.nodes = (updateGraphData clusters prior).1) := by
  constructor
  · rw [clusterGraphEffect]
    rcases clusters with _ | ⟨c, cs⟩ <;> cases svgP <;> cases contP <;> simp
  · intro hne
    rcases clusters with _ | ⟨c, cs⟩
    · exact absurd rfl hne
    · refine ⟨{ nodes := (updateGraphData (c :: cs) prior).1
                links := (updateGraphData (c :: cs) prior).2
                chargeStrength := -400, collideIterations := 2
                centerX := 0 / 2, centerY := 0 / 2
                centerStrength := 0.1 }, ?_, ?_, ?_, rfl⟩
      · rw [clusterGraphEffect]
        simp
      · norm_num
      · norm_num

/-- Witness for C8 (amended): a concrete non-empty tree with a zero-area
viewport still yields a simulation, centered at the origin. -/
theorem zeroViewportGuardWitness :
    ∃ cfg, clusterGraphEffect [sampleAI] true true 0 0 [] = some cfg
      ∧ cfg.centerX = 0 ∧ cfg.centerY = 0
      ∧ cfg.nodes = (updateGraphData [sampleAI] []).1 :=
  (zeroViewportGuard [sampleAI] [] true true 0 0).2 (by simp)

/-- Counterexample for C8 as stated: with a zero-area viewport (width and
height both `0`), a non-empty tree and both refs present, the effect does
create a simulation — `start` is not a no-op. -/
theorem zeroViewportCounterexample :
    (clusterGraphEffect [sampleAI] true true 0 0 []).isSome = true := rfl

/-- Claim C9: an input tree with duplicate node ids is tolerated — the rebuild
is total, emitting one merged node per emitted entry and all links — and the
lookup map used for the continuity merge sends every id (in particular each
duplicated one) to the last node written with that id. -/
theorem duplicateIdsLastWriteWins (clusters : List Cluster)
    (prior : List D3Node) (hdup : ¬ (treeIds clusters).Nodup) :
    ((updateGraphData clusters prior).1.length = (newNodes clusters).length
      ∧ (updateGraphData clusters prior).2 = newLinks clusters)
    ∧ ∀ i : String,
        existingNodesMap (updateGraphData clusters prior).1 i
          = (updateGraphData clusters prior).1.reverse.find?
              (fun d => d.id == i) := by
  refine ⟨⟨?_, rfl⟩, ?_⟩
  · show ((newNodes clusters).map _).length = _
    rw [List.length_map]
  · intro i
    exact existingNodesMap_eq_find? _ i

/-- Witness for C9: a tree whose two groups share the id `g1`. -/
theorem duplicateIdsLastWriteWinsWitness :
    ((updateGraphData [sampleAI, sampleAI] []).1.length
        = (newNodes [sampleAI, sampleAI]).length
      ∧ (updateGraphData [sampleAI, sampleAI] []).2
          = newLinks [sampleAI, sampleAI])
    ∧ ∀ i : String,
        existingNodesMap (updateGraphData [sampleAI, sampleAI] []).1 i
          = (updateGraphData [sampleAI, sampleAI] []).1.reverse.find?
              (fun d => d.id == i) :=
  duplicateIdsLastWriteWins [sampleAI, sampleAI] [] (by decide)

/-- Claim C10: the continuity merge copies only `{x,y,vx,vy}` and never the
pin fields `fx`/`fy` (all other fields are also kept from the emitted node),
so every node of a freshly rebuilt generation is unpinned even when a node
with the same id was pinned in the prior generation. -/
theorem mergeNeverCopiesPins (clusters : List Cluster)
    (prior : List D3Node) :
    (∀ (m : String → Option D3Node) (d : D3Node),
        (mergeNode m d).fx = d.fx ∧ (mergeNode m d).fy = d.fy
        ∧ (mergeNode m d).id = d.id ∧ (mergeNode m d).ty = d.ty
        ∧ (mergeNode m d).name = d.name
        ∧ (mergeNode m d).noteId = d.noteId
        ∧ (mergeNode m d).r = d.r
        ∧ (mergeNode m d).originalClusterId = d.originalClusterId)
    ∧ ∀ n ∈ (updateGraphData clusters prior).1,
        n.fx = none ∧ n.fy = none := by
  refine ⟨fun m d => ⟨mergeNode_fx m d, mergeNode_fy m d, mergeNode_id m d,
    mergeNode_ty m d, mergeNode_name m d, mergeNode_noteId m d,
    mergeNode_r m d, mergeNode_originalClusterId m d⟩, ?_⟩
  intro n hn
  rcases List.mem_map.1 hn with ⟨b, hb, rfl⟩
  obtain ⟨-, -, -, -, hfx, hfy⟩ := newNodes_unseeded hb
  rw [mergeNode_fx, mergeNode_fy]
  exact ⟨hfx, hfy⟩

/-- Witness for C10: rebuilding the sample tree over a prior generation whose
`g1` node is pinned (`fx = fy = some 9`) yields an unpinned `g1` node. -/
theorem mergeNeverCopiesPinsWitness :
    (mergeNode (existingNodesMap samplePrior) (clusterNodeOf sampleAI)).fx
        = none
    ∧ (mergeNode (existingNodesMap samplePrior)
        (clusterNodeOf sampleAI)).fy = none :=
  (mergeNeverCopiesPins [sampleAI] samplePrior).2
    (mergeNode (existingNodesMap samplePrior) (clusterNodeOf sampleAI))
    (List.mem_map.2 ⟨clusterNodeOf sampleAI,
      mem_newNodes.2 (Or.inr ⟨sampleAI, by simp, Or.inl rfl⟩), rfl⟩)

end ClusterGraphModel
